import Mathlib

/-! The class upload::FileProcessor (cvmfs/upload_file_processor.h).

A shallow embedding of the data types declared in
`cvmfs/upload_file_processor.h` (`TemporaryFileChunk`,
`FileProcessor::worker_context`, `FileProcessor::Parameters`,
`FileProcessor::Results`) and of the file processing pipeline whose member
functions the header declares (`operator()`, `GenerateFileChunks`,
`GenerateBulkFile`, `ProcessFileChunk`).

Conventions:
* `std::string` is `String`, `std::vector` is `List`, `bool` is `Bool`,
  `int` and `off_t` are `Int`, `size_t` is `Nat`;
* a C++ constructor becomes a function returning the structure, a setter
  becomes a function returning the updated structure;
* the types `hash::Any` and `FileChunk` are used by the header but declared
  elsewhere; they are modelled from the specification's data model;
* the bodies of the member functions are not part of the header; they are
  modelled from the specification (sections 4.2 to 4.5 and 7).
-/

/-- Modelled from the spec: the digest type produced by the Hasher, which is
declared outside the header: "a fixed-size digest plus an algorithm tag". -/
structure Digest where
  algorithm : Nat
  digest : List Nat
deriving DecidableEq, Repr

namespace hash

/-- Modelled from the spec: the type `hash::Any`, declared outside the header.
The specification's piece has "content_hash: Digest (initially absent)"; the
null hash is `none`, a computed hash is `some d`. -/
abbrev Any := Option Digest

/-- The default constructor `hash::Any()`: the null hash. -/
def Any.null : Any := none

/-- The null test of a hash value. -/
def Any.IsNull (h : Any) : Bool := h.isNone

end hash

namespace upload

/-- Modelled from the spec: the base class `FileChunk`, declared outside the
header. Its fields are those of the specification's piece
(`content_hash`, `offset`, `size`); the header uses its three-argument
constructor `FileChunk(hash, offset, size)` and its member `content_hash_`. -/
structure FileChunk where
  content_hash_ : hash.Any
  offset_ : Int
  size_ : Nat
deriving DecidableEq, Repr

/-- The class `TemporaryFileChunk : public FileChunk`, with the extra member
`temporary_path_`. -/
structure TemporaryFileChunk extends FileChunk where
  temporary_path_ : String
deriving DecidableEq, Repr

namespace TemporaryFileChunk

/-- The constructor `TemporaryFileChunk() {}`. The base sub-object is built by
the default constructor `FileChunk()`, which is not in the header: its value is
the parameter `base`. The member `temporary_path_` is a default-constructed
`std::string`. -/
def default (base : FileChunk) : TemporaryFileChunk :=
  { toFileChunk := base, temporary_path_ := "" }

/-- The constructor `TemporaryFileChunk(const off_t offset, const size_t size) :
FileChunk(hash::Any(), offset, size) {}`. -/
def new (offset : Int) (size : Nat) : TemporaryFileChunk :=
  { content_hash_ := hash.Any.null, offset_ := offset, size_ := size,
    temporary_path_ := "" }

/-- The accessor `temporary_path() const { return temporary_path_; }`. -/
def temporary_path (c : TemporaryFileChunk) : String := c.temporary_path_

/-- The setter `set_content_hash(hash) { content_hash_ = hash; }`. -/
def set_content_hash (c : TemporaryFileChunk) (h : hash.Any) : TemporaryFileChunk :=
  { c with content_hash_ := h }

/-- The setter `set_temporary_path(path) { temporary_path_ = path; }`. -/
def set_temporary_path (c : TemporaryFileChunk) (path : String) : TemporaryFileChunk :=
  { c with temporary_path_ := path }

end TemporaryFileChunk

/-- The type `TemporaryFileChunks` (`std::vector<TemporaryFileChunk>`). -/
abbrev TemporaryFileChunks := List TemporaryFileChunk

/-- The struct `FileProcessor::worker_context`. -/
structure worker_context where
  temporary_path : String
  use_file_chunking : Bool
deriving DecidableEq, Repr

/-- The constructor `worker_context(temporary_path, use_file_chunking)`. -/
def worker_context.new (temporary_path : String) (use_file_chunking : Bool) :
    worker_context :=
  { temporary_path := temporary_path, use_file_chunking := use_file_chunking }

/-- The struct `FileProcessor::Parameters`. -/
structure Parameters where
  local_path : String
  allow_chunking : Bool
deriving DecidableEq, Repr

/-- The constructor `Parameters(local_path, allow_chunking)`. -/
def Parameters.new (local_path : String) (allow_chunking : Bool) : Parameters :=
  { local_path := local_path, allow_chunking := allow_chunking }

/-- The default constructor `Parameters() : local_path(), allow_chunking(false)`. -/
def Parameters.empty : Parameters :=
  { local_path := "", allow_chunking := false }

/-- The struct `FileProcessor::Results`. -/
structure Results where
  return_code : Int
  bulk_file : TemporaryFileChunk
  file_chunks : TemporaryFileChunks
  local_path : String
deriving DecidableEq, Repr

/-- The constructor `Results(local_path) : return_code(-1),
local_path(local_path) {}`. The members `bulk_file` and `file_chunks` are
default-constructed; `base` is the value of the default constructor
`FileChunk()` (see `TemporaryFileChunk.default`). -/
def Results.new (base : FileChunk) (local_path : String) : Results :=
  { return_code := -1, bulk_file := TemporaryFileChunk.default base,
    file_chunks := [], local_path := local_path }

/-- The member `IsChunked() const { return file_chunks.size() > 1; }`. -/
def Results.IsChunked (r : Results) : Bool := decide (r.file_chunks.length > 1)

/-! ## The processing pipeline

The header declares `FileProcessor::operator()`, `GenerateFileChunks`,
`GenerateBulkFile` and `ProcessFileChunk` but does not contain their bodies.
They are modelled from the specification. -/

/-- Modelled from the spec: the error taxonomy of section 7, which is missing
from the header: "IoError (file open/map/read/write failure), CompressionError,
HashingError, ChunkingPolicyError (invalid size configuration, e.g. min > max)". -/
inductive ErrorCode where
  | IoError
  | CompressionError
  | HashingError
  | ChunkingPolicyError
deriving DecidableEq, Repr

/-- Modelled from the spec: the status code carried by a failed Result, missing
from the header. The header fixes only that `return_code` is "0 if job was
successful"; the failure codes are numbered 1 to 4 in the order of the
taxonomy. -/
def ErrorCode.code : ErrorCode → Int
  | .IoError => 1
  | .CompressionError => 2
  | .HashingError => 3
  | .ChunkingPolicyError => 4

/-- Modelled from the spec: the chunking policy of sections 4.3 and 6, which is
missing from the header: "minimum chunk size, target/average chunk size, maximum
chunk size", together with the "minimum chunking threshold" of section 4.2. -/
structure ChunkPolicy where
  min_chunk_size : Nat
  avg_chunk_size : Nat
  max_chunk_size : Nat
  chunking_threshold : Nat
deriving DecidableEq, Repr

/-- Modelled from the spec: the leaf components of section 2 and the open
choices of the specification, which are missing from the header.
* `readFile`: the Memory-Mapped Reader; `none` when the file cannot be opened;
* `compress`: the compression of a byte range; `none` is a CompressionError;
* `hasher`: the Hasher, "hash(byte range) -> Digest"; `none` is a HashingError;
* `writeTemp`: writing and finalising a temporary file of the Temporary Store;
  `false` is an IoError;
* `fingerprintMatch avg bytes pos`: whether the rolling fingerprint of `bytes`
  at position `pos` matches the bit pattern configured for the target size `avg`
  (the fingerprint function is left open by the specification);
* `schedule`: the order in which the ranges of one job are processed
  ("independently and in any order"). -/
structure Collaborators where
  readFile : String → Option (List Nat)
  compress : List Nat → Option (List Nat)
  hasher : List Nat → Option Digest
  writeTemp : String → List Nat → Bool
  fingerprintMatch : Nat → List Nat → Nat → Bool
  schedule : List TemporaryFileChunk → List TemporaryFileChunk

/-- Modelled from the spec: the boundary test of the Chunk Splitter (section
4.3), missing from the header. The current range starts at `start` and has
length `len`; a boundary "is accepted only once the minimum size since the last
boundary is reached", when the fingerprint matches, "and is forced at the
maximum size if no fingerprint match occurs". -/
def isBoundary (env : Collaborators) (policy : ChunkPolicy) (bytes : List Nat)
    (start len : Nat) : Bool :=
  decide (policy.max_chunk_size ≤ len) ||
    (decide (policy.min_chunk_size ≤ len) &&
      env.fingerprintMatch policy.avg_chunk_size bytes (start + len))

/-- Modelled from the spec: the scan of the Chunk Splitter (section 4.3),
missing from the header. The current range is `[start, start + len)` and `rem`
bytes follow it. With no byte left the range is closed: "the final range always
ends exactly at end-of-file even if shorter than the minimum". -/
def splitFrom (env : Collaborators) (policy : ChunkPolicy) (bytes : List Nat) :
    Nat → Nat → Nat → List (Nat × Nat)
  | 0, start, len => [(start, len)]
  | rem + 1, start, len =>
    if isBoundary env policy bytes start len then
      (start, len) :: splitFrom env policy bytes rem (start + len) 1
    else
      splitFrom env policy bytes rem start (len + 1)

/-- Modelled from the spec: the Chunk Splitter (section 4.3), missing from the
header: "split(mapped_file) -> ordered sequence of (offset, size)". -/
def split (env : Collaborators) (policy : ChunkPolicy) (bytes : List Nat) :
    List (Nat × Nat) :=
  match bytes.length with
  | 0 => []
  | n + 1 => splitFrom env policy bytes n 0 1

/-- The ranges of the Chunk Splitter with the offset as an `off_t`, as
`GenerateFileChunks` hands them to `TemporaryFileChunk(offset, size)`. -/
def splitRanges (env : Collaborators) (policy : ChunkPolicy) (bytes : List Nat) :
    List (Int × Nat) :=
  (split env policy bytes).map (fun r => (Int.ofNat r.1, r.2))

/-- The class `FileProcessor`: its two private members. -/
structure FileProcessor where
  temporary_path_ : String
  use_file_chunking_ : Bool
deriving DecidableEq, Repr

/-- Modelled from the spec: the constructor `FileProcessor(const worker_context
*context)`, whose body is missing from the header; it keeps the two fields of
the worker context. -/
def FileProcessor.new (context : worker_context) : FileProcessor :=
  { temporary_path_ := context.temporary_path,
    use_file_chunking_ := context.use_file_chunking }

/-- Modelled from the spec: the naming scheme of the Temporary Store (section
4.5), missing from the header: "a fresh, uniquely named writable file under
base_path", named by a monotonic suffix. -/
def tempFileName (base_path : String) (suffix : Nat) : String :=
  base_path ++ "/" ++ toString suffix

/-- Modelled from the spec: `FileProcessor::ProcessFileChunk`, whose body is
missing from the header (section 4.2: "compress+hash+store" one range and
record hash and path in the piece). `suffix` is the next free suffix of the
Temporary Store; the result is the finished piece and the next free suffix. -/
def FileProcessor.ProcessFileChunk (env : Collaborators) (self : FileProcessor)
    (mmf : List Nat) (suffix : Nat) (chunk : TemporaryFileChunk) :
    Except ErrorCode (TemporaryFileChunk × Nat) :=
  let range := (mmf.drop chunk.offset_.toNat).take chunk.size_
  match env.compress range with
  | none => .error .CompressionError
  | some compressed =>
    match env.hasher compressed with
    | none => .error .HashingError
    | some digest =>
      let path := tempFileName self.temporary_path_ suffix
      if env.writeTemp path compressed then
        .ok ((chunk.set_temporary_path path).set_content_hash (some digest),
          suffix + 1)
      else
        .error .IoError

/-- Modelled from the spec: the loop of `GenerateFileChunks` over the ranges of
one job, missing from the header; it stops at "the first failure encountered". -/
def FileProcessor.processAll (env : Collaborators) (self : FileProcessor)
    (mmf : List Nat) : Nat → List TemporaryFileChunk →
    Except ErrorCode (List TemporaryFileChunk × Nat)
  | suffix, [] => .ok ([], suffix)
  | suffix, chunk :: rest =>
    match self.ProcessFileChunk env mmf suffix chunk with
    | .error e => .error e
    | .ok (finished, suffix1) =>
      match FileProcessor.processAll env self mmf suffix1 rest with
      | .error e => .error e
      | .ok (others, suffix2) => .ok (finished :: others, suffix2)

/-- Modelled from the spec: `FileProcessor::GenerateFileChunks`, whose body is
missing from the header (section 4.2 step 4): the ranges of the Chunk Splitter
are processed in the scheduled order and "the final chunk_pieces sequence in
the Result must be re-ordered back to ascending offset". An invalid size
configuration (min > max) is a ChunkingPolicyError. -/
def FileProcessor.GenerateFileChunks (env : Collaborators) (policy : ChunkPolicy)
    (self : FileProcessor) (mmf : List Nat) (suffix : Nat) (data : Results) :
    Except ErrorCode Results :=
  if policy.max_chunk_size < policy.min_chunk_size then
    .error .ChunkingPolicyError
  else
    let chunks := (split env policy mmf).map
      (fun r => TemporaryFileChunk.new (Int.ofNat r.1) r.2)
    match self.processAll env mmf suffix (env.schedule chunks) with
    | .error e => .error e
    | .ok (finished, _) =>
      .ok { data with
        file_chunks := finished.insertionSort (fun a b => a.offset_ ≤ b.offset_) }

/-- Modelled from the spec: `FileProcessor::GenerateBulkFile`, whose body is
missing from the header (section 4.2 step 3): "compress+hash+store the whole
range as one Piece". -/
def FileProcessor.GenerateBulkFile (env : Collaborators) (self : FileProcessor)
    (mmf : List Nat) (suffix : Nat) (data : Results) : Except ErrorCode Results :=
  match self.ProcessFileChunk env mmf suffix (TemporaryFileChunk.new 0 mmf.length) with
  | .error e => .error e
  | .ok (finished, _) => .ok { data with bulk_file := finished }

/-- Modelled from the spec: the choice of the processing mode inside
`FileProcessor::operator()`, missing from the header (section 4.2 step 2):
"chunking is attempted only if both job.allow_chunking and the pool's global
chunking flag are true, and the file size exceeds a minimum chunking
threshold". -/
def FileProcessor.chunkingAttempted (policy : ChunkPolicy) (self : FileProcessor)
    (data : Parameters) (mmf : List Nat) : Bool :=
  data.allow_chunking && self.use_file_chunking_ &&
    decide (policy.chunking_threshold < mmf.length)

/-- Modelled from the spec: `FileProcessor::operator()`, whose body is missing
from the header (section 4.2, "process(job) -> Result"). A file that "cannot be
opened or is empty" fails with an I/O error; chunking is attempted "only if both
job.allow_chunking and the pool's global chunking flag are true, and the file
size exceeds a minimum chunking threshold" (`chunkingAttempted`); on failure the
status carries the first failure and "partially-built pieces are discarded". -/
def FileProcessor.process (base : FileChunk) (env : Collaborators)
    (policy : ChunkPolicy) (self : FileProcessor) (suffix : Nat)
    (data : Parameters) : Results :=
  let result := Results.new base data.local_path
  let fail := fun (e : ErrorCode) => { result with return_code := e.code }
  match env.readFile data.local_path with
  | none => fail .IoError
  | some mmf =>
    if mmf.length = 0 then fail .IoError
    else
      let generated :=
        if self.chunkingAttempted policy data mmf then
          self.GenerateFileChunks env policy mmf suffix result
        else
          self.GenerateBulkFile env mmf suffix result
      match generated with
      | .error e => fail e
      | .ok filled => { filled with return_code := 0 }

/-- Modelled from the spec: the pieces a Result exposes to the caller, a notion
missing from the header (section 3): none for a failed Result ("partially-built
pieces are discarded (not exposed)"), the bulk piece when `file_chunks` is
empty, the chunk pieces otherwise. -/
def Results.pieces (r : Results) : List TemporaryFileChunk :=
  if r.return_code ≠ 0 then []
  else if r.file_chunks.isEmpty then [r.bulk_file]
  else r.file_chunks

/-- The byte range `(offset, size)` of a piece. -/
def TemporaryFileChunk.range (c : TemporaryFileChunk) : Int × Nat :=
  (c.offset_, c.size_)

/-- A list of ranges tiles `[first, last)`: each range starts where the previous
one ended, is not empty, and the last one ends at `last`. -/
def Tiles : Int → List (Int × Nat) → Int → Prop
  | first, [], last => first = last
  | first, r :: rs, last => r.1 = first ∧ 0 < r.2 ∧ Tiles (first + r.2) rs last

/-- A sample set of collaborators: two files, the identity compression, a hasher
tagging the bytes, a boundary wherever the byte is zero, and the ranges of one
job processed in reverse order. -/
def sampleEnv : Collaborators :=
  { readFile := fun p =>
      if p = "data" then some [7, 0, 3, 0, 5, 9, 2] else
      if p = "void" then some [] else none
    compress := fun b => some b
    hasher := fun b => some { algorithm := 1, digest := b }
    writeTemp := fun _ _ => true
    fingerprintMatch := fun _ bytes pos => decide (bytes.getD pos 1 = 0)
    schedule := List.reverse }

/-- A sample chunking policy. -/
def samplePolicy : ChunkPolicy :=
  { min_chunk_size := 1, avg_chunk_size := 2, max_chunk_size := 4,
    chunking_threshold := 3 }

/-- A sample value of the default constructor `FileChunk()`. -/
def sampleBase : FileChunk :=
  { content_hash_ := hash.Any.null, offset_ := 0, size_ := 0 }

/-! ## The data types of the header -/

/-- C1: for every Results value, `IsChunked()` is true exactly when
`file_chunks` has more than one entry; it is false for an empty list and for a
list of exactly one chunk, and two Results with the same `file_chunks` agree on
it whatever their `return_code`, `bulk_file` and `local_path` are. -/
theorem IsChunked_iff_more_than_one (r : Results) :
    (r.IsChunked = true ↔ 1 < r.file_chunks.length) ∧
    (Results.IsChunked ({ r with file_chunks := [] } : Results) = false) ∧
    (∀ c : TemporaryFileChunk, Results.IsChunked ({ r with file_chunks := [c] } : Results) = false) ∧
    (∀ (code : Int) (bf : TemporaryFileChunk) (path : String),
      Results.IsChunked (Results.mk code bf r.file_chunks path) = r.IsChunked) := by
  refine ⟨?_, ?_, ?_, ?_⟩
  · simp [Results.IsChunked]
  · simp [Results.IsChunked]
  · intro c
    simp [Results.IsChunked]
  · intro code bf path
    simp [Results.IsChunked]

/-- C2: the piece built by `TemporaryFileChunk(o, s)` has offset `o`, size `s`,
the null content hash `hash::Any()` and an empty temporary path; the
default-constructed piece has an empty temporary path too. -/
theorem TemporaryFileChunk_new_fields (o : Int) (s : Nat) (base : FileChunk) :
    (TemporaryFileChunk.new o s).offset_ = o ∧
    (TemporaryFileChunk.new o s).size_ = s ∧
    (TemporaryFileChunk.new o s).content_hash_ = hash.Any.null ∧
    hash.Any.IsNull (TemporaryFileChunk.new o s).content_hash_ = true ∧
    (TemporaryFileChunk.new o s).temporary_path = "" ∧
    (TemporaryFileChunk.default base).temporary_path = "" :=
  ⟨rfl, rfl, rfl, rfl, rfl, rfl⟩

/-- C3: the Result built by `Results(p)` has `local_path` equal to `p`,
`return_code` equal to -1 (which is not the success code 0), an empty
`file_chunks` list, so that `IsChunked()` is false, and a default `bulk_file`
with an empty temporary path. -/
theorem Results_new_not_successful (base : FileChunk) (p : String) :
    (Results.new base p).local_path = p ∧
    (Results.new base p).return_code = -1 ∧
    (Results.new base p).return_code ≠ 0 ∧
    (Results.new base p).file_chunks = [] ∧
    (Results.new base p).IsChunked = false ∧
    (Results.new base p).bulk_file = TemporaryFileChunk.default base ∧
    (Results.new base p).bulk_file.temporary_path = "" := by
  refine ⟨rfl, rfl, ?_, rfl, rfl, rfl, rfl⟩
  simp [Results.new]

/-- C7: `Parameters(p, b)` stores `p` as `local_path` and `b` as
`allow_chunking`, and `worker_context(t, c)` stores `t` as `temporary_path` and
`c` as `use_file_chunking`. -/
theorem constructors_store_arguments (p t : String) (b c : Bool) :
    (Parameters.new p b).local_path = p ∧
    (Parameters.new p b).allow_chunking = b ∧
    (worker_context.new t c).temporary_path = t ∧
    (worker_context.new t c).use_file_chunking = c :=
  ⟨rfl, rfl, rfl, rfl⟩

/-- C8: the default-constructed Parameters value has an empty `local_path` and
`allow_chunking` equal to false. -/
theorem Parameters_empty_fields :
    Parameters.empty.local_path = "" ∧ Parameters.empty.allow_chunking = false :=
  ⟨rfl, rfl⟩

/-- C9: `set_temporary_path` changes only the temporary path and
`set_content_hash` changes only the content hash; the two setters commute and
neither alters the range (offset, size) of the piece. -/
theorem setters_frame (c : TemporaryFileChunk) (h : hash.Any) (p : String) :
    ((c.set_temporary_path p).offset_ = c.offset_ ∧
      (c.set_temporary_path p).size_ = c.size_ ∧
      (c.set_temporary_path p).content_hash_ = c.content_hash_) ∧
    ((c.set_content_hash h).offset_ = c.offset_ ∧
      (c.set_content_hash h).size_ = c.size_ ∧
      (c.set_content_hash h).temporary_path = c.temporary_path) ∧
    (c.set_temporary_path p).set_content_hash h =
      (c.set_content_hash h).set_temporary_path p ∧
    ((c.set_temporary_path p).set_content_hash h).range = c.range :=
  ⟨⟨rfl, rfl, rfl⟩, ⟨rfl, rfl, rfl⟩, rfl, rfl⟩

/-- C10: after `set_temporary_path(p)` the accessor `temporary_path()` returns
`p`; setting `p` after `q` is the same as setting `p` alone, setting the same
path twice is the same as setting it once, and after `set_content_hash(h)` the
content hash is `h`. -/
theorem setters_last_write_wins (c : TemporaryFileChunk) (h : hash.Any) (p q : String) :
    (c.set_temporary_path p).temporary_path = p ∧
    (c.set_temporary_path q).set_temporary_path p = c.set_temporary_path p ∧
    (c.set_temporary_path p).set_temporary_path p = c.set_temporary_path p ∧
    (c.set_content_hash h).content_hash_ = h :=
  ⟨rfl, rfl, rfl, rfl⟩

/-! ## The Chunk Splitter tiles the file -/

theorem tiles_splitFrom (env : Collaborators) (policy : ChunkPolicy) (bytes : List Nat) :
    ∀ (rem start len : Nat), 0 < len →
      Tiles (start : Int)
        ((splitFrom env policy bytes rem start len).map (fun r => (Int.ofNat r.1, r.2)))
        ((start : Int) + len + rem) := by
  intro rem
  induction rem with
  | zero =>
    intro start len hlen
    simp [splitFrom, Tiles, hlen]
  | succ rem ih =>
    intro start len hlen
    unfold splitFrom
    split
    · have h := ih (start + len) 1 Nat.one_pos
      simp only [List.map_cons, Tiles]
      refine ⟨rfl, hlen, ?_⟩
      have e : ((start : Int) + len + ((rem + 1 : Nat) : Int)) =
          (((start + len : Nat) : Int) + ((1 : Nat) : Int) + (rem : Int)) := by
        push_cast; ring
      rw [e]
      simpa using h
    · have h := ih start (len + 1) (Nat.succ_pos len)
      have e : ((start : Int) + len + ((rem + 1 : Nat) : Int)) =
          ((start : Int) + ((len + 1 : Nat) : Int) + (rem : Int)) := by
        push_cast; ring
      rw [e]
      exact h

theorem tiles_splitRanges (env : Collaborators) (policy : ChunkPolicy) (bytes : List Nat) :
    Tiles 0 (splitRanges env policy bytes) (bytes.length : Int) := by
  unfold splitRanges split
  cases hn : bytes.length with
  | zero => simp [Tiles]
  | succ n =>
    have h := tiles_splitFrom env policy bytes n 0 1 Nat.one_pos
    simp only at h ⊢
    have e : (((0 : Nat) : Int) + ((1 : Nat) : Int) + (n : Int)) = ((n + 1 : Nat) : Int) := by
      push_cast; ring
    rw [e] at h
    simpa using h

theorem splitRanges_ne_nil (env : Collaborators) (policy : ChunkPolicy) (bytes : List Nat)
    (h : bytes ≠ []) : splitRanges env policy bytes ≠ [] := by
  intro hnil
  have ht := tiles_splitRanges env policy bytes
  rw [hnil] at ht
  simp only [Tiles] at ht
  have : bytes.length = 0 := by exact_mod_cast ht.symm
  exact h (List.length_eq_zero.mp this)

theorem Tiles.bounds : ∀ (l : List (Int × Nat)) (first last : Int), Tiles first l last →
    first ≤ last ∧ ∀ r ∈ l, first ≤ r.1 ∧ r.1 + r.2 ≤ last := by
  intro l
  induction l with
  | nil =>
    intro first last h
    simp only [Tiles] at h
    simp [h]
  | cons a l ih =>
    intro first last h
    obtain ⟨h1, h2, h3⟩ := h
    obtain ⟨hb, hall⟩ := ih _ _ h3
    refine ⟨by omega, ?_⟩
    intro r hr
    rcases List.mem_cons.mp hr with rfl | hr
    · omega
    · have := hall r hr
      omega

theorem Tiles.ascending : ∀ (l : List (Int × Nat)) (first last : Int), Tiles first l last →
    l.Pairwise (fun a b : Int × Nat => a.1 + (a.2 : Int) ≤ b.1) := by
  intro l
  induction l with
  | nil => intro _ _ _; exact List.Pairwise.nil
  | cons a l ih =>
    intro first last h
    obtain ⟨h1, h2, h3⟩ := h
    refine List.Pairwise.cons ?_ (ih _ _ h3)
    intro b hb
    have := (Tiles.bounds l _ _ h3).2 b hb
    omega

theorem Tiles.positive : ∀ (l : List (Int × Nat)) (first last : Int), Tiles first l last →
    ∀ r ∈ l, 0 < r.2 := by
  intro l
  induction l with
  | nil => intro _ _ _ r hr; simp at hr
  | cons a l ih =>
    intro first last h r hr
    obtain ⟨h1, h2, h3⟩ := h
    rcases List.mem_cons.mp hr with rfl | hr
    · exact h2
    · exact ih _ _ h3 r hr

theorem Tiles.adjacent : ∀ (l : List (Int × Nat)) (first last : Int), Tiles first l last →
    l.Chain' (fun a b : Int × Nat => a.1 + (a.2 : Int) = b.1) := by
  intro l
  induction l with
  | nil => intro _ _ _; exact List.chain'_nil
  | cons a l ih =>
    intro first last h
    obtain ⟨h1, h2, h3⟩ := h
    cases l with
    | nil => exact List.chain'_singleton a
    | cons b l =>
      refine List.chain'_cons.mpr ⟨?_, ih _ _ h3⟩
      have := h3.1
      omega

theorem Tiles.union : ∀ (l : List (Int × Nat)) (first last : Int), Tiles first l last →
    ∀ x : Int, (first ≤ x ∧ x < last) ↔ ∃ r ∈ l, r.1 ≤ x ∧ x < r.1 + r.2 := by
  intro l
  induction l with
  | nil =>
    intro first last h x
    simp only [Tiles] at h
    simp only [List.not_mem_nil, false_and, exists_false, iff_false]
    omega
  | cons a l ih =>
    intro first last h x
    obtain ⟨h1, h2, h3⟩ := h
    have hb := (Tiles.bounds l _ _ h3).1
    have hi := ih _ _ h3 x
    constructor
    · intro hx
      by_cases hlt : x < a.1 + a.2
      · exact ⟨a, List.mem_cons_self _ _, by omega, hlt⟩
      · obtain ⟨r, hr, hr2⟩ := hi.mp ⟨by omega, hx.2⟩
        exact ⟨r, List.mem_cons_of_mem _ hr, hr2⟩
    · rintro ⟨r, hr, hr1, hr2⟩
      rcases List.mem_cons.mp hr with rfl | hr
      · omega
      · have := hi.mpr ⟨r, hr, hr1, hr2⟩
        omega

/-! ## Re-ordering the processed pieces -/

theorem Tiles.strict (l : List (Int × Nat)) (first last : Int) (h : Tiles first l last) :
    l.Pairwise (fun a b : Int × Nat => a.1 < b.1) := by
  refine List.Pairwise.imp_of_mem ?_ (Tiles.ascending l first last h)
  intro a b ha _ hab
  have := Tiles.positive l first last h a ha
  omega

theorem Tiles.offset_injective (l : List (Int × Nat)) (first last : Int)
    (h : Tiles first l last) : ∀ a ∈ l, ∀ b ∈ l, a.1 = b.1 → a = b := by
  have hs : l.Pairwise (fun a b : Int × Nat => a.1 = b.1 → a = b) :=
    (Tiles.strict l first last h).imp (fun hab he => absurd he (ne_of_lt hab))
  have hsymm : Symmetric (fun a b : Int × Nat => a.1 = b.1 → a = b) :=
    fun a b hab he => (hab he.symm).symm
  intro a ha b hb
  exact List.Pairwise.forall_of_forall hsymm (fun _ _ _ => rfl) hs ha hb

theorem sorted_perm_tiles_eq (s l : List (Int × Nat)) (first last : Int)
    (ht : Tiles first l last) (hp : s.Perm l)
    (hs : s.Pairwise (fun a b : Int × Nat => a.1 ≤ b.1)) : s = l := by
  haveI : IsAntisymm (Int × Nat) (fun a b => a.1 < b.1 ∨ a = b) :=
    ⟨fun a b hab hba => by
      rcases hab with hab | hab
      · rcases hba with hba | hba
        · exact absurd hab (not_lt_of_gt hba)
        · exact hba.symm
      · exact hab⟩
  have hinj := Tiles.offset_injective l first last ht
  have h1 : s.Pairwise (fun a b : Int × Nat => a.1 < b.1 ∨ a = b) := by
    refine List.Pairwise.imp_of_mem ?_ hs
    intro a b ha hb hab
    by_cases he : a.1 = b.1
    · exact Or.inr (hinj a (hp.mem_iff.mp ha) b (hp.mem_iff.mp hb) he)
    · exact Or.inl (lt_of_le_of_ne hab he)
  have h2 : l.Pairwise (fun a b : Int × Nat => a.1 < b.1 ∨ a = b) :=
    (Tiles.strict l first last ht).imp (fun hab => Or.inl hab)
  exact List.eq_of_perm_of_sorted hp h1 h2

/-! ## Processing one range -/

theorem tempFileName_ne_empty (base_path : String) (suffix : Nat) :
    tempFileName base_path suffix ≠ "" := by
  intro h
  have hl := congrArg String.length h
  simp only [tempFileName, String.length_append] at hl
  have h1 : "/".length = 1 := rfl
  have h0 : "".length = 0 := rfl
  omega

theorem ProcessFileChunk_ok (env : Collaborators) (self : FileProcessor) (mmf : List Nat)
    (suffix suffix1 : Nat) (chunk finished : TemporaryFileChunk)
    (h : self.ProcessFileChunk env mmf suffix chunk = .ok (finished, suffix1)) :
    finished.range = chunk.range ∧
      hash.Any.IsNull finished.content_hash_ = false ∧
      finished.temporary_path ≠ "" := by
  unfold FileProcessor.ProcessFileChunk at h
  simp only at h
  split at h
  · exact absurd h (by simp)
  · split at h
    · exact absurd h (by simp)
    · split at h
      · simp only [Except.ok.injEq, Prod.mk.injEq] at h
        obtain ⟨h, -⟩ := h
        subst h
        refine ⟨rfl, rfl, ?_⟩
        exact tempFileName_ne_empty _ _
      · exact absurd h (by simp)

theorem processAll_ok (env : Collaborators) (self : FileProcessor) (mmf : List Nat) :
    ∀ (chunks finished : List TemporaryFileChunk) (suffix suffix1 : Nat),
      self.processAll env mmf suffix chunks = .ok (finished, suffix1) →
      finished.map TemporaryFileChunk.range = chunks.map TemporaryFileChunk.range ∧
        ∀ c ∈ finished, hash.Any.IsNull c.content_hash_ = false ∧ c.temporary_path ≠ "" := by
  intro chunks
  induction chunks with
  | nil =>
    intro finished suffix suffix1 h
    simp only [FileProcessor.processAll, Except.ok.injEq, Prod.mk.injEq] at h
    obtain ⟨h, -⟩ := h
    subst h
    simp
  | cons c cs ih =>
    intro finished suffix suffix1 h
    unfold FileProcessor.processAll at h
    split at h
    · exact absurd h (by simp)
    · rename_i d s1 hd
      split at h
      · exact absurd h (by simp)
      · rename_i ds s2 hds
        simp only [Except.ok.injEq, Prod.mk.injEq] at h
        obtain ⟨h, -⟩ := h
        subst h
        obtain ⟨hr, hp⟩ := ih ds s1 s2 hds
        obtain ⟨hr1, hp1⟩ := ProcessFileChunk_ok env self mmf suffix s1 c d hd
        refine ⟨by simp [hr, hr1], ?_⟩
        intro x hx
        rcases List.mem_cons.mp hx with rfl | hx
        · exact hp1
        · exact hp x hx

/-! ## The two processing modes -/

theorem GenerateFileChunks_ok (env : Collaborators) (policy : ChunkPolicy)
    (self : FileProcessor) (mmf : List Nat) (suffix : Nat) (data filled : Results)
    (hperm : ∀ l, (env.schedule l).Perm l)
    (h : self.GenerateFileChunks env policy mmf suffix data = .ok filled) :
    filled.file_chunks.map TemporaryFileChunk.range = splitRanges env policy mmf ∧
      (∀ c ∈ filled.file_chunks,
        hash.Any.IsNull c.content_hash_ = false ∧ c.temporary_path ≠ "") ∧
      filled.bulk_file = data.bulk_file := by
  unfold FileProcessor.GenerateFileChunks at h
  split at h
  · exact absurd h (by simp)
  · simp only at h
    split at h
    · exact absurd h (by simp)
    · rename_i finished s1 hfin
      simp only [Except.ok.injEq] at h
      subst h
      obtain ⟨hr, hp⟩ := processAll_ok env self mmf _ finished suffix s1 hfin
      refine ⟨?_, ?_, rfl⟩
      · haveI : IsTotal TemporaryFileChunk (fun a b => a.offset_ ≤ b.offset_) :=
          ⟨fun a b => le_total a.offset_ b.offset_⟩
        haveI : IsTrans TemporaryFileChunk (fun a b => a.offset_ ≤ b.offset_) :=
          ⟨fun a b c hab hbc => le_trans hab hbc⟩
        apply sorted_perm_tiles_eq _ _ 0 (mmf.length : Int) (tiles_splitRanges env policy mmf)
        · refine ((List.perm_insertionSort _ finished).map _).trans ?_
          rw [hr]
          refine ((hperm _).map _).trans ?_
          simp [splitRanges, TemporaryFileChunk.range, TemporaryFileChunk.new,
            List.map_map, Function.comp_def]
        · rw [List.pairwise_map]
          exact List.sorted_insertionSort (fun a b : TemporaryFileChunk => a.offset_ ≤ b.offset_)
            finished
      · intro c hc
        exact hp c ((List.mem_insertionSort _).mp hc)

theorem GenerateBulkFile_ok (env : Collaborators) (self : FileProcessor) (mmf : List Nat)
    (suffix : Nat) (data filled : Results)
    (h : self.GenerateBulkFile env mmf suffix data = .ok filled) :
    filled.file_chunks = data.file_chunks ∧
      filled.bulk_file.range = (0, mmf.length) ∧
      hash.Any.IsNull filled.bulk_file.content_hash_ = false ∧
      filled.bulk_file.temporary_path ≠ "" := by
  unfold FileProcessor.GenerateBulkFile at h
  split at h
  · exact absurd h (by simp)
  · rename_i finished s1 hfin
    simp only [Except.ok.injEq] at h
    subst h
    obtain ⟨hr, hp⟩ := ProcessFileChunk_ok env self mmf suffix s1 _ finished hfin
    exact ⟨rfl, hr, hp⟩

theorem ErrorCode.code_ne_zero (e : ErrorCode) : e.code ≠ 0 := by
  cases e <;> simp [ErrorCode.code]

theorem process_cases (base : FileChunk) (env : Collaborators) (policy : ChunkPolicy)
    (self : FileProcessor) (suffix : Nat) (data : Parameters) :
    (∃ e : ErrorCode, self.process base env policy suffix data =
        { Results.new base data.local_path with return_code := e.code }) ∨
    (∃ mmf filled, env.readFile data.local_path = some mmf ∧ mmf ≠ [] ∧
        (if self.chunkingAttempted policy data mmf then
          self.GenerateFileChunks env policy mmf suffix (Results.new base data.local_path)
        else
          self.GenerateBulkFile env mmf suffix (Results.new base data.local_path))
          = .ok filled ∧
        self.process base env policy suffix data = { filled with return_code := 0 }) := by
  unfold FileProcessor.process
  simp only
  cases hrf : env.readFile data.local_path with
  | none => exact Or.inl ⟨.IoError, rfl⟩
  | some mmf =>
    simp only
    by_cases hlen : mmf.length = 0
    · exact Or.inl ⟨.IoError, by simp [hlen]⟩
    · simp only [hlen, if_false]
      cases hgen : (if self.chunkingAttempted policy data mmf then
          self.GenerateFileChunks env policy mmf suffix (Results.new base data.local_path)
        else
          self.GenerateBulkFile env mmf suffix (Results.new base data.local_path)) with
      | error e => exact Or.inl ⟨e, rfl⟩
      | ok filled =>
        exact Or.inr ⟨mmf, filled, rfl, fun hnil => hlen (by simp [hnil]), hgen, rfl⟩

theorem process_ok (base : FileChunk) (env : Collaborators) (policy : ChunkPolicy)
    (self : FileProcessor) (suffix : Nat) (data : Parameters)
    (hperm : ∀ l, (env.schedule l).Perm l)
    (hok : (self.process base env policy suffix data).return_code = 0) :
    ∃ mmf, env.readFile data.local_path = some mmf ∧ mmf ≠ [] ∧
      ((self.chunkingAttempted policy data mmf = true ∧
          (self.process base env policy suffix data).file_chunks.map TemporaryFileChunk.range
            = splitRanges env policy mmf ∧
          ∀ c ∈ (self.process base env policy suffix data).file_chunks,
            hash.Any.IsNull c.content_hash_ = false ∧ c.temporary_path ≠ "") ∨
        (self.chunkingAttempted policy data mmf = false ∧
          (self.process base env policy suffix data).file_chunks = [] ∧
          (self.process base env policy suffix data).bulk_file.range = (0, mmf.length) ∧
          hash.Any.IsNull (self.process base env policy suffix data).bulk_file.content_hash_
            = false ∧
          (self.process base env policy suffix data).bulk_file.temporary_path ≠ "")) := by
  rcases process_cases base env policy self suffix data with ⟨e, he⟩ | ⟨mmf, filled, hrf, hne, hgen, hr⟩
  · rw [he] at hok
    exact absurd hok (ErrorCode.code_ne_zero e)
  · refine ⟨mmf, hrf, hne, ?_⟩
    rw [hr]
    by_cases hmode : self.chunkingAttempted policy data mmf = true
    · left
      simp only [hmode, if_true] at hgen
      obtain ⟨h1, h2, -⟩ := GenerateFileChunks_ok env policy self mmf suffix _ filled
        hperm hgen
      exact ⟨hmode, h1, h2⟩
    · right
      simp only [hmode, if_false] at hgen
      obtain ⟨h1, h2, h3, h4⟩ := GenerateBulkFile_ok env self mmf suffix _ filled hgen
      exact ⟨by simpa using hmode, h1, h2, h3, h4⟩

theorem process_bulk_mode (base : FileChunk) (env : Collaborators) (policy : ChunkPolicy)
    (self : FileProcessor) (suffix : Nat) (data : Parameters)
    (hmode : ∀ mmf, env.readFile data.local_path = some mmf →
      self.chunkingAttempted policy data mmf = false) :
    (self.process base env policy suffix data).file_chunks = [] ∧
    ((self.process base env policy suffix data).return_code = 0 →
      ∃ mmf, env.readFile data.local_path = some mmf ∧ mmf ≠ [] ∧
        (self.process base env policy suffix data).bulk_file.range = (0, mmf.length) ∧
        hash.Any.IsNull (self.process base env policy suffix data).bulk_file.content_hash_
          = false ∧
        (self.process base env policy suffix data).bulk_file.temporary_path ≠ "") := by
  rcases process_cases base env policy self suffix data with ⟨e, he⟩ | ⟨mmf, filled, hrf, hne, hgen, hr⟩
  · rw [he]
    refine ⟨rfl, fun hok => absurd hok (ErrorCode.code_ne_zero e)⟩
  · rw [hr]
    simp only [hmode mmf hrf, Bool.false_eq_true, if_false] at hgen
    obtain ⟨h1, h2, h3, h4⟩ := GenerateBulkFile_ok env self mmf suffix _ filled hgen
    exact ⟨h1, fun _ => ⟨mmf, hrf, hne, h2, h3, h4⟩⟩

/-! ## The Results of the File Processor -/

theorem tiles_pieces (ps : List TemporaryFileChunk) (last : Int)
    (h : Tiles 0 (ps.map TemporaryFileChunk.range) last) :
    ps.Pairwise (fun a b => a.offset_ < b.offset_) ∧
    ps.Pairwise (fun a b => a.offset_ + (a.size_ : Int) ≤ b.offset_) ∧
    ps.Chain' (fun a b => a.offset_ + (a.size_ : Int) = b.offset_) ∧
    (∀ x : Int, (0 ≤ x ∧ x < last) ↔
      ∃ c ∈ ps, c.offset_ ≤ x ∧ x < c.offset_ + (c.size_ : Int)) := by
  refine ⟨?_, ?_, ?_, ?_⟩
  · have := Tiles.strict _ _ _ h
    rw [List.pairwise_map] at this
    exact this
  · have := Tiles.ascending _ _ _ h
    rw [List.pairwise_map] at this
    exact this
  · have := Tiles.adjacent _ _ _ h
    rw [List.chain'_map] at this
    exact this
  · intro x
    rw [Tiles.union _ _ _ h x]
    simp [TemporaryFileChunk.range]

theorem process_ok_tiles (base : FileChunk) (env : Collaborators) (policy : ChunkPolicy)
    (self : FileProcessor) (suffix : Nat) (data : Parameters)
    (hperm : ∀ l, (env.schedule l).Perm l)
    (hok : (self.process base env policy suffix data).return_code = 0) :
    ∃ mmf, env.readFile data.local_path = some mmf ∧ mmf ≠ [] ∧
      Tiles 0 ((self.process base env policy suffix data).pieces.map TemporaryFileChunk.range)
        (mmf.length : Int) ∧
      ∀ c ∈ (self.process base env policy suffix data).pieces,
        hash.Any.IsNull c.content_hash_ = false ∧ c.temporary_path ≠ "" := by
  obtain ⟨mmf, hrf, hne, h⟩ := process_ok base env policy self suffix data hperm hok
  refine ⟨mmf, hrf, hne, ?_⟩
  rcases h with ⟨-, hr, hp⟩ | ⟨-, hnil, hr, hp⟩
  · have hne2 : (self.process base env policy suffix data).file_chunks ≠ [] := by
      intro hnil
      rw [hnil] at hr
      exact splitRanges_ne_nil env policy mmf hne hr.symm
    have hpieces : (self.process base env policy suffix data).pieces =
        (self.process base env policy suffix data).file_chunks := by
      simp [Results.pieces, hok, hne2]
    rw [hpieces, hr]
    exact ⟨tiles_splitRanges env policy mmf, hp⟩
  · have hpieces : (self.process base env policy suffix data).pieces =
        [(self.process base env policy suffix data).bulk_file] := by
      simp [Results.pieces, hok, hnil]
    rw [hpieces]
    have hpos : 0 < mmf.length := List.length_pos.mpr hne
    refine ⟨?_, ?_⟩
    · simp only [List.map_cons, List.map_nil, hr, Tiles]
      exact ⟨trivial, hpos, by simp⟩
    · intro c hc
      rw [List.mem_singleton.mp hc]
      exact hp

/-- C4: for every file that the File Processor processes successfully
(`return_code` 0), whatever the order in which the ranges were processed, the
pieces of the Result are strictly ascending by offset, do not overlap, leave no
gap (each piece starts where the previous one ends), and their union is exactly
`[0, file_size)`. -/
theorem successful_pieces_cover_file (base : FileChunk) (env : Collaborators)
    (policy : ChunkPolicy) (context : worker_context) (suffix : Nat) (data : Parameters)
    (hperm : ∀ l, (env.schedule l).Perm l)
    (hok : ((FileProcessor.new context).process base env policy suffix data).return_code = 0) :
    ∃ mmf, env.readFile data.local_path = some mmf ∧
      ((FileProcessor.new context).process base env policy suffix data).pieces.Pairwise
        (fun a b => a.offset_ < b.offset_) ∧
      ((FileProcessor.new context).process base env policy suffix data).pieces.Pairwise
        (fun a b => a.offset_ + (a.size_ : Int) ≤ b.offset_) ∧
      ((FileProcessor.new context).process base env policy suffix data).pieces.Chain'
        (fun a b => a.offset_ + (a.size_ : Int) = b.offset_) ∧
      (∀ x : Int, (0 ≤ x ∧ x < (mmf.length : Int)) ↔
        ∃ c ∈ ((FileProcessor.new context).process base env policy suffix data).pieces,
          c.offset_ ≤ x ∧ x < c.offset_ + (c.size_ : Int)) := by
  obtain ⟨mmf, hrf, -, ht, -⟩ :=
    process_ok_tiles base env policy (FileProcessor.new context) suffix data hperm hok
  exact ⟨mmf, hrf, tiles_pieces _ _ ht⟩

theorem successful_pieces_cover_file_witness :
    ((FileProcessor.new (worker_context.new "/tmp" true)).process sampleBase sampleEnv
        samplePolicy 0 (Parameters.new "data" true)).return_code = 0 ∧
    (((FileProcessor.new (worker_context.new "/tmp" true)).process sampleBase sampleEnv
        samplePolicy 0 (Parameters.new "data" true)).pieces.map TemporaryFileChunk.range
      = [(0, 1), (1, 2), (3, 4)]) ∧
    ∃ mmf, sampleEnv.readFile (Parameters.new "data" true).local_path = some mmf ∧
      ((FileProcessor.new (worker_context.new "/tmp" true)).process sampleBase sampleEnv
        samplePolicy 0 (Parameters.new "data" true)).pieces.Pairwise
        (fun a b => a.offset_ < b.offset_) ∧
      ((FileProcessor.new (worker_context.new "/tmp" true)).process sampleBase sampleEnv
        samplePolicy 0 (Parameters.new "data" true)).pieces.Pairwise
        (fun a b => a.offset_ + (a.size_ : Int) ≤ b.offset_) ∧
      ((FileProcessor.new (worker_context.new "/tmp" true)).process sampleBase sampleEnv
        samplePolicy 0 (Parameters.new "data" true)).pieces.Chain'
        (fun a b => a.offset_ + (a.size_ : Int) = b.offset_) ∧
      (∀ x : Int, (0 ≤ x ∧ x < (mmf.length : Int)) ↔
        ∃ c ∈ ((FileProcessor.new (worker_context.new "/tmp" true)).process sampleBase
            sampleEnv samplePolicy 0 (Parameters.new "data" true)).pieces,
          c.offset_ ≤ x ∧ x < c.offset_ + (c.size_ : Int)) :=
  ⟨by decide, by decide,
    successful_pieces_cover_file sampleBase sampleEnv samplePolicy
      (worker_context.new "/tmp" true) 0 (Parameters.new "data" true)
      (fun l => List.reverse_perm l) (by decide)⟩

/-- C5 (amended): for every job whose `allow_chunking` flag is false, or whose
worker context has `use_file_chunking` false, or whose file is not above the
chunking threshold, the Result has an empty `file_chunks` list and is not
chunked; when the job succeeds (`return_code` 0) the Result exposes exactly one
piece, the bulk piece, which spans offset 0 to the full file length. -/
theorem bulk_when_chunking_not_attempted (base : FileChunk) (env : Collaborators)
    (policy : ChunkPolicy) (context : worker_context) (suffix : Nat) (data : Parameters)
    (hmode : data.allow_chunking = false ∨ context.use_file_chunking = false ∨
      ∀ mmf, env.readFile data.local_path = some mmf →
        mmf.length ≤ policy.chunking_threshold) :
    ((FileProcessor.new context).process base env policy suffix data).file_chunks = [] ∧
    ((FileProcessor.new context).process base env policy suffix data).IsChunked = false ∧
    (((FileProcessor.new context).process base env policy suffix data).return_code = 0 →
      ((FileProcessor.new context).process base env policy suffix data).pieces =
        [((FileProcessor.new context).process base env policy suffix data).bulk_file] ∧
      ∃ mmf, env.readFile data.local_path = some mmf ∧
        ((FileProcessor.new context).process base env policy suffix data).bulk_file.offset_
          = 0 ∧
        ((FileProcessor.new context).process base env policy suffix data).bulk_file.size_
          = mmf.length) := by
  have hm : ∀ mmf, env.readFile data.local_path = some mmf →
      (FileProcessor.new context).chunkingAttempted policy data mmf = false := by
    intro mmf hrf
    unfold FileProcessor.chunkingAttempted FileProcessor.new
    rcases hmode with h | h | h
    · simp [h]
    · simp [h]
    · have := h mmf hrf
      simp only [Bool.and_eq_false_imp, Bool.and_eq_true, decide_eq_false_iff_not, not_lt]
      intro _
      exact this
  obtain ⟨hnil, hsucc⟩ :=
    process_bulk_mode base env policy (FileProcessor.new context) suffix data hm
  refine ⟨hnil, by simp [Results.IsChunked, hnil], ?_⟩
  intro hok
  obtain ⟨mmf, hrf, -, hr, -, -⟩ := hsucc hok
  refine ⟨by simp [Results.pieces, hok, hnil], mmf, hrf, ?_, ?_⟩
  · exact congrArg Prod.fst hr
  · exact congrArg Prod.snd hr

theorem bulk_when_chunking_not_attempted_witness :
    ((FileProcessor.new (worker_context.new "/tmp" true)).process sampleBase sampleEnv
        samplePolicy 0 (Parameters.new "data" false)).return_code = 0 ∧
    ((FileProcessor.new (worker_context.new "/tmp" true)).process sampleBase sampleEnv
        samplePolicy 0 (Parameters.new "data" false)).file_chunks = [] ∧
    ((FileProcessor.new (worker_context.new "/tmp" true)).process sampleBase sampleEnv
        samplePolicy 0 (Parameters.new "data" false)).IsChunked = false ∧
    (((FileProcessor.new (worker_context.new "/tmp" true)).process sampleBase sampleEnv
        samplePolicy 0 (Parameters.new "data" false)).return_code = 0 →
      ((FileProcessor.new (worker_context.new "/tmp" true)).process sampleBase sampleEnv
        samplePolicy 0 (Parameters.new "data" false)).pieces =
        [((FileProcessor.new (worker_context.new "/tmp" true)).process sampleBase sampleEnv
          samplePolicy 0 (Parameters.new "data" false)).bulk_file] ∧
      ∃ mmf, sampleEnv.readFile (Parameters.new "data" false).local_path = some mmf ∧
        ((FileProcessor.new (worker_context.new "/tmp" true)).process sampleBase sampleEnv
          samplePolicy 0 (Parameters.new "data" false)).bulk_file.offset_ = 0 ∧
        ((FileProcessor.new (worker_context.new "/tmp" true)).process sampleBase sampleEnv
          samplePolicy 0 (Parameters.new "data" false)).bulk_file.size_ = mmf.length) :=
  ⟨by decide,
    bulk_when_chunking_not_attempted sampleBase sampleEnv samplePolicy
      (worker_context.new "/tmp" true) 0 (Parameters.new "data" false) (Or.inl rfl)⟩

/-- C5 (counterexample): a job with `allow_chunking` false on an empty file, and
one on a file that cannot be opened, fail with the I/O error code; the Result
exposes no piece (not exactly one), and its `bulk_file` has neither a content
hash nor a temporary path. -/
theorem bulk_claim_fails_on_unreadable_file :
    (Parameters.new "void" false).allow_chunking = false ∧
    sampleEnv.readFile (Parameters.new "void" false).local_path = some [] ∧
    ((FileProcessor.new (worker_context.new "/tmp" true)).process sampleBase sampleEnv
        samplePolicy 0 (Parameters.new "void" false)).return_code = ErrorCode.IoError.code ∧
    ¬ (((FileProcessor.new (worker_context.new "/tmp" true)).process sampleBase sampleEnv
        samplePolicy 0 (Parameters.new "void" false)).pieces.length = 1) ∧
    hash.Any.IsNull ((FileProcessor.new (worker_context.new "/tmp" true)).process sampleBase
        sampleEnv samplePolicy 0 (Parameters.new "void" false)).bulk_file.content_hash_
      = true ∧
    ((FileProcessor.new (worker_context.new "/tmp" true)).process sampleBase sampleEnv
        samplePolicy 0 (Parameters.new "void" false)).bulk_file.temporary_path = "" ∧
    sampleEnv.readFile (Parameters.new "gone" false).local_path = none ∧
    ((FileProcessor.new (worker_context.new "/tmp" true)).process sampleBase sampleEnv
        samplePolicy 0 (Parameters.new "gone" false)).return_code = ErrorCode.IoError.code ∧
    ¬ (((FileProcessor.new (worker_context.new "/tmp" true)).process sampleBase sampleEnv
        samplePolicy 0 (Parameters.new "gone" false)).pieces.length = 1) := by
  decide

/-- C6: for every Result that the File Processor returns with the success code
(`return_code` 0), the `bulk_file` when the file was processed in bulk
(`file_chunks` empty), every element of `file_chunks`, and so every piece the
Result exposes, has a non-null content hash and a non-empty temporary path. -/
theorem successful_pieces_populated (base : FileChunk) (env : Collaborators)
    (policy : ChunkPolicy) (context : worker_context) (suffix : Nat) (data : Parameters)
    (hperm : ∀ l, (env.schedule l).Perm l)
    (hok : ((FileProcessor.new context).process base env policy suffix data).return_code = 0) :
    (((FileProcessor.new context).process base env policy suffix data).file_chunks = [] →
      hash.Any.IsNull
          ((FileProcessor.new context).process base env policy suffix data).bulk_file.content_hash_
        = false ∧
      ((FileProcessor.new context).process base env policy suffix data).bulk_file.temporary_path
        ≠ "") ∧
    (∀ c ∈ ((FileProcessor.new context).process base env policy suffix data).file_chunks,
      hash.Any.IsNull c.content_hash_ = false ∧ c.temporary_path ≠ "") ∧
    (∀ c ∈ ((FileProcessor.new context).process base env policy suffix data).pieces,
      hash.Any.IsNull c.content_hash_ = false ∧ c.temporary_path ≠ "") := by
  obtain ⟨mmf, -, hne, h⟩ :=
    process_ok base env policy (FileProcessor.new context) suffix data hperm hok
  obtain ⟨-, -, -, -, hpieces⟩ :=
    process_ok_tiles base env policy (FileProcessor.new context) suffix data hperm hok
  refine ⟨?_, ?_, hpieces⟩
  · intro hnil
    rcases h with ⟨-, hr, -⟩ | ⟨-, -, -, hp⟩
    · rw [hnil] at hr
      exact absurd hr.symm (splitRanges_ne_nil env policy mmf hne)
    · exact hp
  · rcases h with ⟨-, -, hp⟩ | ⟨-, hnil, -, -⟩
    · exact hp
    · intro c hc
      rw [hnil] at hc
      simp at hc

theorem successful_pieces_populated_witness :
    ((FileProcessor.new (worker_context.new "/var/spool" true)).process sampleBase sampleEnv
        samplePolicy 5 (Parameters.new "data" true)).return_code = 0 ∧
    ((FileProcessor.new (worker_context.new "/var/spool" true)).process sampleBase sampleEnv
        samplePolicy 5 (Parameters.new "data" true)).file_chunks.map
        TemporaryFileChunk.temporary_path = ["/var/spool/7", "/var/spool/6", "/var/spool/5"] ∧
    (((FileProcessor.new (worker_context.new "/var/spool" true)).process sampleBase sampleEnv
        samplePolicy 5 (Parameters.new "data" true)).file_chunks = [] →
      hash.Any.IsNull
          ((FileProcessor.new (worker_context.new "/var/spool" true)).process sampleBase
            sampleEnv samplePolicy 5 (Parameters.new "data" true)).bulk_file.content_hash_
        = false ∧
      ((FileProcessor.new (worker_context.new "/var/spool" true)).process sampleBase sampleEnv
        samplePolicy 5 (Parameters.new "data" true)).bulk_file.temporary_path ≠ "") ∧
    (∀ c ∈ ((FileProcessor.new (worker_context.new "/var/spool" true)).process sampleBase
        sampleEnv samplePolicy 5 (Parameters.new "data" true)).file_chunks,
      hash.Any.IsNull c.content_hash_ = false ∧ c.temporary_path ≠ "") ∧
    (∀ c ∈ ((FileProcessor.new (worker_context.new "/var/spool" true)).process sampleBase
        sampleEnv samplePolicy 5 (Parameters.new "data" true)).pieces,
      hash.Any.IsNull c.content_hash_ = false ∧ c.temporary_path ≠ "") :=
  ⟨by decide, by decide,
    successful_pieces_populated sampleBase sampleEnv samplePolicy
      (worker_context.new "/var/spool" true) 5 (Parameters.new "data" true)
      (fun l => List.reverse_perm l) (by decide)⟩

end upload
